import Mathlib

/-!
Shallow embedding of the raspihats I2C-HAT protocol layer:
the frame codec (`src/raspihats/_i2c_frame.py` and
`src/raspihats/i2c_hats/_frame.py`), the bounded-retry transport and
register-level operations (`src/raspihats/_i2c_hat.py`), the digital-input
channel/counter operations (`src/raspihats/_digital.py`) and the
communication-watchdog feed loop (`src/raspihats/_i2c_hat.py`).

Python integers are unbounded, so every byte-valued quantity is embedded as
`Int`; payloads are `List Int`.  Fallible Python code (code that may raise)
is embedded as `Except PyError _`, where `PyError` distinguishes the
exception classes that the source can raise.  Python `/`-free operations
used by the source translate as follows for the arguments that actually
reach them: `x >> n` on an unbounded int is floor division by `2 ^ n` and
`x & 0xFF` is `x % 256`; the Lean `/` and `%` on `Int` are Euclidean
(floor-like for positive divisors), which coincides with the Python `//` and
`%` for positive divisors.
-/

namespace Raspihats

/-- Exception classes raised by the embedded code.  `valueError`,
`decodeError` (`I2CFrameDecodeException`), `responseError`
(`I2CHatResponseException`) and `indexError` mirror the Python exception
classes; `nameError n` is the `NameError` Python raises when a `raise`
statement references a name `n` that is not bound in the module; `ioError`
stands for an `IOError` coming out of the smbus primitives. -/
inductive PyError where
  | valueError (msg : String)
  | decodeError (msg : String)
  | responseError (msg : String)
  | indexError
  | nameError (n : String)
  | ioError
deriving DecidableEq, Repr

/-- Modelled from the spec: the module `raspihats/crc16.py` (imported by
`_i2c_frame.py` as `calc` and by `i2c_hats/_frame.py` as `modbus`) is not
under `src/`.  The spec fixes it as the standard Modbus CRC16: seed
`0xFFFF`, reflected, polynomial `0xA001`.  One shift round: if the low bit
is set, shift right and xor with `0xA001`, else just shift right. -/
def crcRound (c : Nat) : Nat :=
  if c % 2 = 1 then (c / 2) ^^^ 0xA001 else c / 2

/-- Modelled from the spec: absorb one byte into the running CRC — xor the
byte in, then run eight shift rounds. -/
def crcByte (c b : Nat) : Nat :=
  crcRound^[8] (c ^^^ b)

/-- Modelled from the spec: Modbus CRC16 over a byte list, seed `0xFFFF`.
This embeds `crc16.calc` / `crc16.modbus`. -/
def modbus (data : List Nat) : Nat :=
  data.foldl crcByte 0xFFFF

/-- Test used by `I2CFrame.__check_uint8`: the value is in `[0, 255]`. -/
def isUint8 (b : Int) : Bool :=
  decide (0 ≤ b) && decide (b ≤ 255)

/-- Embeds `I2CFrame.__check_uint8` applied to a list of values: raises
`ValueError` when some element is out of `[0, 255]` (the source raises at
the first offending element; the raised exception is the same either way). -/
def checkUint8List (l : List Int) : Except PyError Unit :=
  if l.all isUint8 then .ok () else .error (.valueError "expecting uint8 value")

/-- Embeds `I2CFrame.__check_uint8` applied to a single int value. -/
def checkUint8 (b : Int) : Except PyError Unit :=
  checkUint8List [b]

/-- Frame of `src/raspihats/_i2c_frame.py`: Id byte, Command byte, payload
data bytes.  The CRC is not stored; it is computed by `encode` and checked
by `decode`. -/
structure I2CFrame where
  id : Int
  cmd : Int
  data : List Int
deriving DecidableEq, Repr

/-- Embeds `I2CFrame.__init__(id_, cmd, data)`: checks that id, cmd and
every payload element are uint8 values, then stores them unchanged. -/
def I2CFrame.make (id_ cmd : Int) (data : List Int) : Except PyError I2CFrame := do
  checkUint8 id_
  checkUint8 cmd
  checkUint8List data
  pure ⟨id_, cmd, data⟩

/-- Embeds `I2CFrame.encode`: `data = [id, cmd] + payload`,
`crc = calc(data)`, result `data + [crc & 0xFF, (crc >> 8) & 0xFF]`.
On `Nat`, `crc & 0xFF` is `crc % 256` and `(crc >> 8) & 0xFF` is
`crc / 256 % 256`.  The CRC is computed over the byte values (frames are
uint8-validated at construction, so `Int.toNat` is the identity there). -/
def I2CFrame.encode (f : I2CFrame) : List Int :=
  let body := [f.id, f.cmd] ++ f.data
  let crc := modbus (body.map Int.toNat)
  body ++ [((crc % 256 : Nat) : Int), ((crc / 256 % 256 : Nat) : Int)]

/-- Embeds `I2CFrame.decode(data)` on a frame pre-seeded with the expected
id and command.  Steps of the source, in order: uint8-check all raw bytes;
`crc = calc(data[:-2])`; compare with `(data[-1] << 8) + data[-2]`
(`Crc check failed` on mismatch); compare `data[0]` with the expected id
(`unexpected Id`) and `data[1]` with the expected command
(`unexpected Command`); on success the new payload is `data[2:-2]`.
Python raises `IndexError` at `data[-1]` / `data[-2]` when the raw list has
fewer than two elements (after the uint8 check and the vacuous CRC over the
empty slice); `data[0]` and `data[1]` are then always in range.  The source
mutates the frame in place; the embedding returns the updated frame. -/
def I2CFrame.decode (f : I2CFrame) (raw : List Int) : Except PyError I2CFrame :=
  if ¬ raw.all isUint8 then .error (.valueError "expecting uint8 value")
  else if raw.length < 2 then .error .indexError
  else
    let crc := modbus ((raw.dropLast.dropLast).map Int.toNat)
    if (crc : Int) ≠ (raw.getLastD 0) * 256 + (raw.dropLast.getLastD 0) then
      .error (.decodeError "Crc check failed")
    else if f.id ≠ raw.headD 0 then .error (.decodeError "unexpected Id")
    else if f.cmd ≠ raw.getD 1 0 then .error (.decodeError "unexpected Command")
    else .ok { f with data := ((raw.drop 2).dropLast).dropLast }

/-- Byte values of the `Command` enum of `src/raspihats/i2c_hats/_frame.py`
(board 0x10-0x13, watchdog 0x14-0x16, digital inputs 0x20-0x24, digital
outputs 0x30-0x37). -/
def commandValues : List Int :=
  [0x10, 0x11, 0x12, 0x13, 0x14, 0x15, 0x16,
   0x20, 0x21, 0x22, 0x23, 0x24,
   0x30, 0x31, 0x32, 0x33, 0x34, 0x35, 0x36, 0x37]

/-- Frame of `src/raspihats/i2c_hats/_frame.py` (the newer variant of the
codec).  The command is stored as the byte value of the `Command` enum
member. -/
structure Frame where
  id : Int
  cmd : Int
  data : List Int
deriving DecidableEq, Repr

/-- Embeds `Frame.__init__(id, cmd, data)` of `src/raspihats/i2c_hats/_frame.py`:
`self.id = id; self.cmd = Command(cmd); self.data = data`.  The id and the
payload bytes are stored without any range check; the only failure is the
`ValueError` that the `Command(cmd)` enum lookup raises when `cmd` is not a
member value. -/
def Frame.make (id_ cmd : Int) (data : List Int) : Except PyError Frame :=
  if cmd ∈ commandValues then .ok ⟨id_, cmd, data⟩
  else .error (.valueError "is not a valid Command")

/-- Outcome of one write-then-read exchange on the bus, as seen by one
iteration of the retry loop in `I2CHat._transfer_`: the
`write_i2c_block_data` call raises, the `read_i2c_block_data` call raises,
or the read returns raw bytes. -/
inductive BusOutcome where
  | writeError
  | readError
  | response (raw : List Int)

/-- One iteration of the try block of `I2CHat._transfer_`: encode and write
the request (a write is attempted in every case); if no response is
expected return immediately after a successful write; otherwise read the
raw response bytes, build a response frame pre-seeded with the request id
and command (`I2CFrame(request_frame.id, request_frame.cmd)`) and decode
into it.  Any raised error is the recorded exception of the iteration. -/
def attemptOnce (f : I2CFrame) (respExpected : Bool) (o : BusOutcome) :
    Except PyError (Option I2CFrame) :=
  match o with
  | .writeError => .error .ioError
  | .readError => if respExpected then .error .ioError else .ok none
  | .response raw =>
    if respExpected then
      match I2CFrame.make f.id f.cmd [] with
      | .ok rf => (rf.decode raw).map some
      | .error e => .error e
    else .ok none

/-- Embeds the `while True` retry loop of `I2CHat._transfer_`.  The source
counts failures in `try_cnt` and retries while `try_cnt + 1 - 1 <
number_of_tries`; here `retriesLeft = number_of_tries - 1 - try_cnt`, which
makes the recursion structural (the guard `try_cnt + 1 < number_of_tries`
holds exactly when `retriesLeft > 0`, for every `Nat` value of both).
`tryIdx` numbers the attempts so the bus oracle can give each exchange its
own outcome; `writes` counts attempted writes; `errs` accumulates the
recorded exceptions in order.  The first component of the result is the
total number of attempted writes; `.error errs` embeds the final
`I2CHatResponseException` whose message the source formats from exactly
this exception list. -/
def transferAux (f : I2CFrame) (respExpected : Bool) (bus : Nat → BusOutcome) :
    Nat → Nat → Nat → List PyError → Nat × Except (List PyError) (Option I2CFrame)
  | retriesLeft, tryIdx, writes, errs =>
    match attemptOnce f respExpected (bus tryIdx) with
    | .ok r => (writes + 1, .ok r)
    | .error e =>
      match retriesLeft with
      | 0 => (writes + 1, .error (errs ++ [e]))
      | r + 1 => transferAux f respExpected bus r (tryIdx + 1) (writes + 1) (errs ++ [e])

/-- Embeds `I2CHat._transfer_(request_frame, response_data_size,
response_expected, number_of_tries)` given a bus oracle assigning an
outcome to every attempt.  A successful call returns `some frame` (or
`none` when no response is expected). -/
def I2CHat.transfer (f : I2CFrame) (respExpected : Bool) (bus : Nat → BusOutcome)
    (numberOfTries : Nat) : Nat × Except (List PyError) (Option I2CFrame) :=
  transferAux f respExpected bus (numberOfTries - 1) 0 0 []

/-- Python `x >> n` on an unbounded int: floor division by `2 ^ n`
(Lean Int division is Euclidean, which is floor division for a positive
divisor, matching Python). -/
def pyShr (x : Int) (n : Nat) : Int :=
  x / ((2 ^ n : Nat) : Int)

/-- Python `x & 0xFF` on an unbounded int: `x mod 256` (Python bitwise-and
with an all-ones low mask keeps the low bits of the twos-complement value,
which is the nonnegative remainder; the Lean `%` on Int is that remainder). -/
def pyAnd255 (x : Int) : Int :=
  x % 256

/-- Request payload of `I2CHat._set_u32_value_(cmd, value)`:
`[value & 0xFF, (value >> 8) & 0xFF, (value >> 16) & 0xFF,
(value >> 24) & 0xFF]`. -/
def setU32Data (value : Int) : List Int :=
  [pyAnd255 value, pyAnd255 (pyShr value 8), pyAnd255 (pyShr value 16),
   pyAnd255 (pyShr value 24)]

/-- Echo check of `I2CHat._set_u32_value_` on the response payload:
`if data != response.data: raise I2CHatResponseException(unexpected format)`
(that name is defined in `_i2c_hat.py`, so the raise succeeds there). -/
def setU32Verify (value : Int) (respData : List Int) : Except PyError Unit :=
  if setU32Data value ≠ respData then .error (.responseError "unexpected format")
  else .ok ()

/-- Request payload of `I2CHat._get_u32_value_`: the source passes `[]`. -/
def getU32RequestData : List Int := []

/-- Little-endian recomposition of a 4-byte payload, the value form used by
the spec to state what the 4 bytes encode. -/
def leValue (l : List Int) : Int :=
  l.getD 0 0 + l.getD 1 0 * 256 + l.getD 2 0 * 65536 + l.getD 3 0 * 16777216

/-- Response handling of `I2CHat._get_u32_value_`: reject any payload whose
length differs from 4 with `I2CHatResponseException(unexpected format)`,
else return `data[0] + (data[1] << 8) + (data[2] << 16) + (data[3] << 24)`
(the payload bytes passed the uint8 check inside `decode`, so the shifts
are multiplications; with length 4 established, `data[i]` is `getD i`). -/
def getU32Decode (respData : List Int) : Except PyError Int :=
  if respData.length ≠ 4 then .error (.responseError "unexpected format")
  else .ok (respData.getD 0 0 + respData.getD 1 0 * 256 + respData.getD 2 0 * 65536 +
            respData.getD 3 0 * 16777216)

/-- Request payload of `DigitalInputs.Channel.__getitem__` for a validated
channel index: `[index]` with command `DI_GET_CHANNEL_STATE`. -/
def diGetChannelStateRequest (index : Int) : List Int := [index]

/-- Response handling of `DigitalInputs.Channel.__getitem__` in
`src/raspihats/_digital.py`: `if len(data) != 2 or data[0] != index: raise
I2CHatResponseException(unexpected format)`, else return `data[1] > 0`.
`_digital.py` imports only `Command` and `I2CHatModule` from `_i2c_hat`, so
the name `I2CHatResponseException` is unbound in that module and the raise
statement itself raises `NameError` (`data[0]` is only evaluated when the
length is 2, mirroring the short-circuit `or`). -/
def diGetChannelState (index : Int) (respData : List Int) : Except PyError Bool :=
  if respData.length ≠ 2 ∨ respData.headD 0 ≠ index then
    .error (.nameError "I2CHatResponseException")
  else .ok (decide (respData.getD 1 0 > 0))

/-- Embeds `DigitalInputs.Counter.__setitem__(index, value)` for a
validated channel index, given the response payload the bus would return.
The first component lists the request payloads actually issued on the bus:
when `value != 0` the source raises `ValueError` before building any
request, so the list is empty; otherwise one request
`[index, counter_type]` is sent with `DI_RESET_COUNTER` and the source
requires the 2-byte payload to be echoed (`len(data) != 2 or index !=
data[0] or counter_type != data[1]` raises; as in `diGetChannelState` that
raise statement hits an unbound name and produces `NameError`). -/
def diCounterSet (counterType index value : Int) (respData : List Int) :
    List (List Int) × Except PyError Unit :=
  if value ≠ 0 then
    ([], .error (.valueError "only 0 is valid, it will reset the counter"))
  else
    ([[index, counterType]],
     if respData.length ≠ 2 ∨ index ≠ respData.headD 0 ∨ counterType ≠ respData.getD 1 0 then
       .error (.nameError "I2CHatResponseException")
     else .ok ())

/-- Commands the `CwdtFeedThread` control queue can carry: `stop()` puts
the string `stop`, `update()` puts the string `update`; nothing else is
ever put on the queue. -/
inductive CwdtCmd where
  | stop
  | update
deriving DecidableEq, Repr

/-- Inputs consumed by one iteration of the `CwdtFeedThread.run` loop: the
wall-clock time at the loop head (the source reads the clock twice in an
iteration, here collapsed to one timestamp since nothing in the loop
depends on the difference), the outcome of `self.get_cwdt_period()` (used
only when the feed is due), and the result of polling the command queue
(`none` embeds the `queue.Empty` timeout). -/
structure FeedIter where
  now : Rat
  feedResult : Except PyError Rat
  cmd : Option CwdtCmd

/-- State of the `CwdtFeedThread.run` loop: the `run_flag`, `feed_period`
and `feed_time` locals, the contents of the error queue `ex_queue`, and a
count of feed attempts performed (`get_cwdt_period` calls), which the
claims about the loop are stated over. -/
structure FeedState where
  runFlag : Bool
  feedPeriod : Rat
  feedTime : Rat
  exQueue : List PyError
  feedAttempts : Nat
deriving DecidableEq, Repr

/-- One iteration of the `while run_flag` body of `CwdtFeedThread.run`:
when `time.time() - feed_time > feed_period`, record the feed time and
attempt the feed — on success `feed_period` becomes half the period read,
on any exception the error is put on `ex_queue` and `run_flag` is cleared;
then the command queue is polled — `stop` clears `run_flag`, `update`
zeroes `feed_period` to force a period re-read. -/
def cwdtStep (s : FeedState) (it : FeedIter) : FeedState :=
  let s1 :=
    if it.now - s.feedTime > s.feedPeriod then
      match it.feedResult with
      | .ok p =>
        { s with feedTime := it.now, feedPeriod := p / 2,
                 feedAttempts := s.feedAttempts + 1 }
      | .error e =>
        { s with feedTime := it.now, exQueue := s.exQueue ++ [e], runFlag := false,
                 feedAttempts := s.feedAttempts + 1 }
    else s
  match it.cmd with
  | none => s1
  | some c =>
    let s2 := if c = .stop then { s1 with runFlag := false } else s1
    if c = .update then { s2 with feedPeriod := 0 } else s2

/-- The `while run_flag` loop of `CwdtFeedThread.run` driven by a finite
trace of iteration inputs: iterate `cwdtStep` while the run flag holds. -/
def cwdtRun (s : FeedState) : List FeedIter → FeedState
  | [] => s
  | it :: rest => if s.runFlag then cwdtRun (cwdtStep s it) rest else s

/-- Initial loop state of `CwdtFeedThread.run` after the queue clear:
`run_flag = True`, `feed_period = 0.0`, `feed_time = 0.0`, empty error
queue, no feed attempted yet. -/
def cwdtInit : FeedState :=
  ⟨true, 0, 0, [], 0⟩

/-- Embeds the address validation of `I2CHat.__init__(address,
base_address)` in `src/raspihats/_i2c_hat.py`: with no base address the
address must lie in `[0, 127]`; with a base address the source checks
`address & base_address != base_address` and raises `ValueError` (message:
address should be in range `[base_address, base_address + 0x0F]`) when the
bitwise test fails.  On success the address is stored unchanged. -/
def I2CHat.checkAddress (address : Int) (baseAddress : Option Int) : Except PyError Int :=
  match baseAddress with
  | none =>
    if ¬ (0 ≤ address ∧ address ≤ 127) then
      .error (.valueError "I2C address should be in range[0, 127]")
    else .ok address
  | some base =>
    if Int.land address base ≠ base then
      .error (.valueError "I2C address should be in range[base_address, base_address + 0x0F]")
    else .ok address

/-! Helper lemmas. -/

lemma crcRound_lt (c : Nat) (h : c < 65536) : crcRound c < 65536 := by
  unfold crcRound
  split
  · have h16 : (65536 : Nat) = 2 ^ 16 := by norm_num
    rw [h16]
    exact Nat.xor_lt_two_pow (by omega) (by norm_num)
  · omega

lemma crcRound_iter_lt (k c : Nat) (h : c < 65536) : crcRound^[k] c < 65536 := by
  induction k generalizing c with
  | zero => simpa using h
  | succ k ih =>
    rw [Function.iterate_succ_apply]
    exact ih _ (crcRound_lt c h)

lemma crcByte_lt (c b : Nat) (hc : c < 65536) (hb : b < 65536) : crcByte c b < 65536 := by
  unfold crcByte
  apply crcRound_iter_lt
  have h16 : (65536 : Nat) = 2 ^ 16 := by norm_num
  rw [h16] at hc hb ⊢
  exact Nat.xor_lt_two_pow hc hb

lemma foldl_crcByte_lt (l : List Nat) (c : Nat) (hc : c < 65536)
    (hl : ∀ b ∈ l, b < 65536) : l.foldl crcByte c < 65536 := by
  induction l generalizing c with
  | nil => simpa using hc
  | cons x xs ih =>
    rw [List.foldl_cons]
    exact ih _ (crcByte_lt c x hc (hl x (by simp))) (fun b hb => hl b (by simp [hb]))

lemma modbus_lt (l : List Nat) (hl : ∀ b ∈ l, b < 65536) : modbus l < 65536 :=
  foldl_crcByte_lt l 0xFFFF (by norm_num) hl

lemma append_two_dropLast (a : List Int) (x y : Int) : (a ++ [x, y]).dropLast = a ++ [x] := by
  have h : a ++ [x, y] = (a ++ [x]) ++ [y] := by simp
  rw [h, List.dropLast_concat]

lemma concat_getLastD (a : List Int) (x d : Int) : (a ++ [x]).getLastD d = x := by
  rw [List.getLastD_eq_getLast?, List.getLast?_concat]
  rfl

/-! Claim theorems. -/

/-- C2: for every frame whose id, command and payload bytes all lie in
[0, 255], decoding the byte list produced by `encode` into a frame
pre-seeded with the same id and command succeeds and yields exactly the
original id, command and payload. -/
theorem I2CFrame.encode_decode_roundtrip (f : I2CFrame) (h1 : isUint8 f.id = true)
    (h2 : isUint8 f.cmd = true) (h3 : f.data.all isUint8 = true) :
    f.decode f.encode = .ok f := by
  have hbytes : ∀ b ∈ ([f.id, f.cmd] ++ f.data).map Int.toNat, b < 65536 := by
    intro b hb
    simp only [List.map_append, List.mem_append, List.map_cons, List.mem_cons] at hb
    have h8 : ∀ x : Int, isUint8 x → x.toNat < 65536 := by
      intro x hx
      simp only [isUint8, Bool.and_eq_true, decide_eq_true_eq] at hx
      omega
    rcases hb with (rfl | rfl | hb) | hb
    · exact h8 _ h1
    · exact h8 _ h2
    · simp at hb
    · simp only [List.mem_map] at hb
      obtain ⟨x, hx, rfl⟩ := hb
      exact h8 _ (by simpa using (List.all_eq_true.mp h3 x hx))
  set crc := modbus (([f.id, f.cmd] ++ f.data).map Int.toNat) with hcrc
  have hlt : crc < 65536 := modbus_lt _ hbytes
  set lo : Int := ((crc % 256 : Nat) : Int) with hlo
  set hi : Int := ((crc / 256 % 256 : Nat) : Int) with hhi
  have henc : f.encode = (f.id :: f.cmd :: f.data) ++ [lo, hi] := by
    simp only [I2CFrame.encode, List.cons_append, List.nil_append, hcrc, hlo, hhi]
  have hall : (f.encode).all isUint8 = true := by
    rw [henc]
    simp only [List.all_append, List.all_cons, Bool.and_eq_true]
    refine ⟨⟨h1, h2, h3⟩, ?_, ?_, ?_⟩
    · simp only [hlo, isUint8, Bool.and_eq_true, decide_eq_true_eq]
      constructor <;> omega
    · simp only [hhi, isUint8, Bool.and_eq_true, decide_eq_true_eq]
      constructor <;> omega
    · simp
  have hlen : (f.encode).length = f.data.length + 4 := by
    rw [henc]
    simp
  have hdl : (f.encode).dropLast = (f.id :: f.cmd :: f.data) ++ [lo] := by
    rw [henc]
    exact append_two_dropLast _ _ _
  have hLastD : (f.encode).getLastD 0 = hi := by
    rw [henc]
    have h : (f.id :: f.cmd :: f.data) ++ [lo, hi] =
        ((f.id :: f.cmd :: f.data) ++ [lo]) ++ [hi] := by simp
    rw [h, concat_getLastD]
  have hdlLastD : (f.encode).dropLast.getLastD 0 = lo := by
    rw [hdl, concat_getLastD]
  have hdl2 : (f.encode).dropLast.dropLast = f.id :: f.cmd :: f.data := by
    rw [hdl, List.dropLast_concat]
  have hhead : (f.encode).headD 0 = f.id := by
    rw [henc]
    rfl
  have hget1 : (f.encode).getD 1 0 = f.cmd := by
    rw [henc]
    rfl
  have hdata : (((f.encode).drop 2).dropLast).dropLast = f.data := by
    rw [henc]
    simp only [List.cons_append, List.drop_succ_cons, List.drop_zero]
    rw [append_two_dropLast, List.dropLast_concat]
  have hcrceq : ((modbus (f.id.toNat :: f.cmd.toNat :: f.data.map Int.toNat) : Nat) : Int) =
      hi * 256 + lo := by
    have hc : f.id.toNat :: f.cmd.toNat :: f.data.map Int.toNat =
        List.map Int.toNat ([f.id, f.cmd] ++ f.data) := by simp
    rw [hc, ← hcrc, hhi, hlo]
    push_cast
    omega
  rw [I2CFrame.decode]
  rw [hall, hlen]
  rw [if_neg (by simp)]
  rw [if_neg (by omega)]
  simp only [hdl2, hLastD, hdlLastD]
  rw [if_neg (by simp [hcrceq])]
  rw [hhead, hget1]
  rw [if_neg (by simp), if_neg (by simp)]
  rw [hdata]

/-- C2 witness: the round trip at the concrete frame with id 0x1E, command
0x21 and payload [0x03]. -/
theorem I2CFrame.encode_decode_roundtrip_witness :
    isUint8 30 = true ∧ isUint8 33 = true ∧ ([(3 : Int)].all isUint8 = true) ∧
      (⟨30, 33, [3]⟩ : I2CFrame).decode (⟨30, 33, [3]⟩ : I2CFrame).encode = .ok ⟨30, 33, [3]⟩ :=
  ⟨by decide, by decide, by decide,
   I2CFrame.encode_decode_roundtrip ⟨30, 33, [3]⟩ (by decide) (by decide) (by decide)⟩

/-- C4 counterexample: in the `i2c_hats` variant of the codec, `Frame`
construction performs no byte-range validation — constructing with id 300
(outside [0, 255]) and command 0x10 succeeds and stores 300 untouched,
so the claim that every Frame construction rejects out-of-range bytes with
`InvalidByteValue` is false on this code. -/
theorem Frame.make_accepts_out_of_range :
    isUint8 300 = false ∧ Frame.make 300 16 [] = .ok ⟨300, 16, []⟩ := by
  constructor
  · decide
  · rfl

/-- C4 (amended): the `_i2c_frame.py` codec does validate — `I2CFrame`
construction fails with `ValueError` (the `InvalidByteValue` of the spec)
exactly when some supplied byte for id, command or payload lies outside
[0, 255], and otherwise succeeds storing id, command and payload unchanged
(no truncation); construction performs no transmission. -/
theorem I2CFrame.make_validates (id_ cmd : Int) (data : List Int) :
    I2CFrame.make id_ cmd data =
      if isUint8 id_ && isUint8 cmd && data.all isUint8 then .ok ⟨id_, cmd, data⟩
      else .error (.valueError "expecting uint8 value") := by
  simp only [I2CFrame.make, checkUint8, checkUint8List, List.all_cons, List.all_nil,
    Bool.and_true]
  cases h1 : isUint8 id_ <;> cases h2 : isUint8 cmd <;> cases h3 : data.all isUint8 <;>
    simp [h1, h2, h3, bind, Except.bind, pure, Except.pure]

lemma transferAux_all_fail (f : I2CFrame) (bus : Nat → BusOutcome) (es : Nat → PyError) :
    ∀ (r tryIdx writes : Nat) (errs : List PyError),
      (∀ i, tryIdx ≤ i → i ≤ tryIdx + r → attemptOnce f true (bus i) = .error (es i)) →
      transferAux f true bus r tryIdx writes errs =
        (writes + r + 1, .error (errs ++ (List.range' tryIdx (r + 1)).map es)) := by
  intro r
  induction r with
  | zero =>
    intro tryIdx writes errs h
    rw [transferAux, h tryIdx le_rfl (by omega)]
    simp [List.range'_one]
  | succ r ih =>
    intro tryIdx writes errs h
    rw [transferAux, h tryIdx le_rfl (by omega)]
    dsimp only
    rw [ih (tryIdx + 1) (writes + 1) (errs ++ [es tryIdx])
        (fun i hi1 hi2 => h i (by omega) (by omega))]
    refine congrArg₂ Prod.mk (by omega) ?_
    rw [List.range'_succ, List.range'_succ]
    simp [List.range'_succ]

/-- C3: when every attempted exchange fails (I/O error on write or read, or
decode error on the response bytes), `_transfer_` with an attempt budget
`numberOfTries ≥ 1` performs exactly `numberOfTries` write attempts and
then fails with `I2CHatResponseException` carrying the recorded underlying
errors in order — it never returns a value. -/
theorem transfer_exhausts_attempts (f : I2CFrame) (bus : Nat → BusOutcome)
    (numberOfTries : Nat) (es : Nat → PyError) (h1 : 1 ≤ numberOfTries)
    (h2 : ∀ i, i < numberOfTries → attemptOnce f true (bus i) = .error (es i)) :
    I2CHat.transfer f true bus numberOfTries =
      (numberOfTries, .error ((List.range numberOfTries).map es)) := by
  unfold I2CHat.transfer
  rw [transferAux_all_fail f bus es (numberOfTries - 1) 0 0 []
      (fun i hi1 hi2 => h2 i (by omega))]
  refine congrArg₂ Prod.mk (by omega) ?_
  rw [List.range_eq_range']
  have hn : numberOfTries - 1 + 1 = numberOfTries := by omega
  rw [hn]
  simp

/-- C3 witness: with 2 attempts and a bus that always fails the write, the
transfer performs exactly 2 write attempts and fails with the two recorded
I/O errors. -/
theorem transfer_exhausts_attempts_witness :
    1 ≤ 2 ∧
      I2CHat.transfer ⟨30, 33, []⟩ true (fun _ => BusOutcome.writeError) 2 =
        (2, .error ((List.range 2).map (fun _ => PyError.ioError))) :=
  ⟨by norm_num,
   transfer_exhausts_attempts ⟨30, 33, []⟩ (fun _ => BusOutcome.writeError) 2
     (fun _ => PyError.ioError) (by norm_num) (fun i _ => rfl)⟩

/-- C1: evaluation of the address validation at the claimed concrete
scenario.  Address 0x41 with base 0x40 is accepted, as the claim states;
but address 0x51 with base 0x40 is ALSO accepted, because the check in the code
is `address & base == base` (0x51 & 0x40 == 0x40), while the claim — and
the error message of the code itself, which names the range [0x40, 0x4F] — say
construction must fail for it. -/
theorem I2CHat.checkAddress_accepts_0x51 :
    I2CHat.checkAddress 0x41 (some 0x40) = .ok 0x41 ∧
    I2CHat.checkAddress 0x51 (some 0x40) = .ok 0x51 := by
  constructor <;> rfl

/-- C5: `_set_u32_value_` sends the value encoded as exactly four
little-endian payload bytes, and given the response payload it succeeds
exactly when that payload equals the bytes sent; any differing payload
fails with `I2CHatResponseException(unexpected format)`. -/
theorem setU32_echo_verification (value : Int) (respData : List Int)
    (h0 : 0 ≤ value) (h1 : value < 4294967296) :
    (setU32Data value).length = 4 ∧
    leValue (setU32Data value) = value ∧
    (setU32Verify value respData = .ok () ↔ respData = setU32Data value) ∧
    (respData ≠ setU32Data value →
      setU32Verify value respData = .error (.responseError "unexpected format")) := by
  refine ⟨rfl, ?_, ?_, ?_⟩
  · simp only [leValue, setU32Data, pyAnd255, pyShr, List.getD]
    norm_num
    omega
  · unfold setU32Verify
    by_cases hc : setU32Data value = respData
    · rw [if_neg (by simp [hc])]
      simp [hc.symm]
    · rw [if_pos (by simpa using hc)]
      constructor
      · intro h
        exact absurd h (by simp)
      · intro h
        exact absurd h.symm hc
  · intro h
    unfold setU32Verify
    rw [if_pos (fun hh => h hh.symm)]

/-- C5 witness: the echo verification at the concrete value 0x12345678
with the matching echoed payload. -/
theorem setU32_echo_verification_witness :
    (0 : Int) ≤ 305419896 ∧ (305419896 : Int) < 4294967296 ∧
    ((setU32Data 305419896).length = 4 ∧
     leValue (setU32Data 305419896) = 305419896 ∧
     (setU32Verify 305419896 (setU32Data 305419896) = .ok () ↔
       setU32Data 305419896 = setU32Data 305419896) ∧
     (setU32Data 305419896 ≠ setU32Data 305419896 →
       setU32Verify 305419896 (setU32Data 305419896) =
         .error (.responseError "unexpected format"))) :=
  ⟨by norm_num, by norm_num,
   setU32_echo_verification 305419896 (setU32Data 305419896) (by norm_num) (by norm_num)⟩

/-- C6: `_get_u32_value_` sends an empty request payload; it fails with
`I2CHatResponseException(unexpected format)` for every response payload
whose length is not 4 (hence for every length 0..10 except 4), and on a
4-byte payload returns the little-endian value
`data[0] + data[1]*2^8 + data[2]*2^16 + data[3]*2^24`. -/
theorem getU32_rejects_bad_length :
    getU32RequestData = [] ∧
    (∀ d : List Int, d.length ≠ 4 →
      getU32Decode d = .error (.responseError "unexpected format")) ∧
    (∀ b0 b1 b2 b3 : Int,
      getU32Decode [b0, b1, b2, b3] = .ok (b0 + b1 * 256 + b2 * 65536 + b3 * 16777216)) := by
  refine ⟨rfl, ?_, ?_⟩
  · intro d hd
    simp [getU32Decode, hd]
  · intro b0 b1 b2 b3
    simp [getU32Decode, List.getD]

/-- C6 witness: a length-1 payload is rejected with the unexpected-format
error. -/
theorem getU32_rejects_bad_length_witness :
    getU32Decode [0] = .error (.responseError "unexpected format") :=
  getU32_rejects_bad_length.2.1 [0] (by decide)

/-- C7: evaluation of `DigitalInputs.Channel.__getitem__` response
handling.  The concrete scenario of the claim holds: request payload [0x03]
with response payload [0x03, 0x01] decodes to channel state true.  On a
malformed response, however, the code does not fail with the response
exception the claim names: `_digital.py` never imports
`I2CHatResponseException`, so the raise statement itself fails with
`NameError`. -/
theorem diGetChannelState_eval :
    diGetChannelStateRequest 3 = [3] ∧
    diGetChannelState 3 [3, 1] = .ok true ∧
    diGetChannelState 3 [3] = .error (.nameError "I2CHatResponseException") := by
  refine ⟨rfl, ?_, ?_⟩ <;> rfl

/-- C8: `DigitalInputs.Counter.__setitem__` with a non-zero value raises
`ValueError` (the `InvalidCounterResetValue` of the spec) before any bus traffic
is issued (no request payload is built or sent); with value 0 it issues
exactly one bus transaction with request payload `[index, counterType]`
and succeeds exactly when that 2-byte payload is echoed back. -/
theorem diCounterSet_spec (counterType index value : Int) (respData : List Int) :
    (value ≠ 0 →
      diCounterSet counterType index value respData =
        ([], .error (.valueError "only 0 is valid, it will reset the counter"))) ∧
    (diCounterSet counterType index 0 respData).1 = [[index, counterType]] ∧
    ((diCounterSet counterType index 0 respData).2 = .ok () ↔
      respData = [index, counterType]) := by
  refine ⟨?_, ?_, ?_⟩
  · intro hv
    simp [diCounterSet, hv]
  · simp [diCounterSet]
  · simp only [diCounterSet, if_neg (by norm_num : ¬ (0 : Int) ≠ 0)]
    constructor
    · intro h
      split at h
      · exact absurd h (by simp)
      · next hcond =>
        push_neg at hcond
        obtain ⟨hlen, hh, hg⟩ := hcond
        rcases respData with _ | ⟨a, _ | ⟨b, _ | ⟨c, t⟩⟩⟩ <;> simp_all
    · intro h
      subst h
      simp

/-- C8 witness: a non-zero requested value (5) is rejected with the
ValueError before any bus request is issued. -/
theorem diCounterSet_spec_witness :
    (5 : Int) ≠ 0 ∧
      diCounterSet 1 2 5 [] =
        ([], .error (.valueError "only 0 is valid, it will reset the counter")) :=
  ⟨by norm_num, (diCounterSet_spec 1 2 5 []).1 (by norm_num)⟩

/-- C10: for every integer value, including negative values and values of
at least 2^32, the four payload bytes `_set_u32_value_` computes are the
little-endian encoding of `value mod 2^32` — each byte is in [0, 255] (so
frame construction raises no error) and their little-endian recomposition
is exactly `value mod 2^32`. -/
theorem setU32_reduces_mod_2_32 (value : Int) :
    setU32Data value =
      [value % 4294967296 % 256, value % 4294967296 / 256 % 256,
       value % 4294967296 / 65536 % 256, value % 4294967296 / 16777216 % 256] ∧
    (setU32Data value).all isUint8 = true ∧
    leValue (setU32Data value) = value % 4294967296 := by
  refine ⟨?_, ?_, ?_⟩
  · simp only [setU32Data, pyAnd255, pyShr, List.cons.injEq, and_true]
    norm_num
    omega
  · simp only [setU32Data, pyAnd255, pyShr, List.all_cons, List.all_nil, Bool.and_true,
      isUint8, Bool.and_eq_true, decide_eq_true_eq]
    norm_num
    omega
  · simp only [leValue, setU32Data, pyAnd255, pyShr, List.getD]
    norm_num
    omega

/-- C9: in the watchdog feed loop, if a due feed attempt (the
`get_cwdt_period` call that re-arms the remote timer) fails, the loop puts
that error on its dedicated error queue and terminates in the same
iteration; however long the remaining trace, no further feed attempt is
ever performed. -/
theorem cwdt_feed_failure_terminal (s : FeedState) (it : FeedIter) (rest : List FeedIter)
    (e : PyError) (hrun : s.runFlag = true) (hdue : it.now - s.feedTime > s.feedPeriod)
    (hfail : it.feedResult = .error e) :
    (cwdtRun s (it :: rest)).exQueue = s.exQueue ++ [e] ∧
    (cwdtRun s (it :: rest)).runFlag = false ∧
    (cwdtRun s (it :: rest)).feedAttempts = s.feedAttempts + 1 := by
  have hstep : (cwdtStep s it).runFlag = false ∧ (cwdtStep s it).exQueue = s.exQueue ++ [e] ∧
      (cwdtStep s it).feedAttempts = s.feedAttempts + 1 := by
    simp only [cwdtStep, if_pos hdue, hfail]
    rcases it.cmd with _ | c
    · simp
    · rcases c <;> simp
  have hstop : ∀ (t : List FeedIter) (s' : FeedState), s'.runFlag = false → cwdtRun s' t = s' := by
    intro t
    induction t with
    | nil =>
      intro s' h
      rfl
    | cons x xs ih =>
      intro s' h
      rw [cwdtRun, h]
      simp
  rw [cwdtRun, hrun, if_pos rfl, hstop rest _ hstep.1]
  exact ⟨hstep.2.1, hstep.1, hstep.2.2⟩

/-- C9 witness: from the initial loop state, an iteration whose feed is due
and fails with an I/O error puts the error on the error queue, stops the
loop, and no feed happens in the rest of the trace. -/
theorem cwdt_feed_failure_terminal_witness :
    cwdtInit.runFlag = true ∧
    ((⟨1, .error .ioError, none⟩ : FeedIter).now - cwdtInit.feedTime > cwdtInit.feedPeriod) ∧
    ((cwdtRun cwdtInit [⟨1, .error .ioError, none⟩, ⟨2, .ok 5, none⟩]).exQueue =
        cwdtInit.exQueue ++ [.ioError] ∧
      (cwdtRun cwdtInit [⟨1, .error .ioError, none⟩, ⟨2, .ok 5, none⟩]).runFlag = false ∧
      (cwdtRun cwdtInit [⟨1, .error .ioError, none⟩, ⟨2, .ok 5, none⟩]).feedAttempts =
        cwdtInit.feedAttempts + 1) := by
  refine ⟨rfl, by norm_num [cwdtInit], ?_⟩
  exact cwdt_feed_failure_terminal cwdtInit ⟨1, .error .ioError, none⟩ [⟨2, .ok 5, none⟩]
    .ioError rfl (by norm_num [cwdtInit]) rfl

end Raspihats
